import Mathlib

/-!
Verification of the Yadro step-execution core against its specification.

The definitions below are a shallow embedding of `src/app/executor/step_executor.py`
(`StepExecutor.execute` and its five handlers) and of the task-store footprint of
`src/app/smm/agent.py`.  Python dict values are modelled by the inductive `Value`;
Python exceptions by the `Except` error channel; `datetime.now` calls by explicit
timestamp parameters.  The data model of `app/executor/models.py`, the
`TaskManager`/`PauseReason` interface of `app/kernel`, and the tool registry of
`app/tools/registry` are not part of the sources; where they are needed they are
modelled from the specification (sections 3, 4.1, 6) and marked as such.
-/

namespace Yadro

/-- A Python runtime value as it occurs in `action_data`, step results and the
execution context: strings, ints, booleans, `None`, lists, and string-keyed dicts
(dicts are association lists in insertion order, without duplicate keys). -/
inductive Value where
  | str (s : String)
  | int (n : Int)
  | bool (b : Bool)
  | none
  | list (xs : List Value)
  | dict (entries : List (String × Value))

/-- A Python dict with string keys, in insertion order. -/
abbrev PyDict := List (String × Value)

/-- Lookup in a dict; `Option.none` when the key is absent. -/
def dLookup (d : PyDict) (k : String) : Option Value :=
  (d.find? (fun kv => kv.1 == k)).map (fun kv => kv.2)

/-- Python `d.get(k, default)`. -/
def dGetD (d : PyDict) (k : String) (dflt : Value) : Value :=
  (dLookup d k).getD dflt

/-- Python `d[k] = v`: replace in place if the key exists, else append. -/
def dictSet (d : PyDict) (k : String) (v : Value) : PyDict :=
  if d.any (fun kv => kv.1 == k) then
    d.map (fun kv => if kv.1 == k then (k, v) else kv)
  else d ++ [(k, v)]

/-- Sequential dict update, as in a dict literal with `**` unpacking:
later entries override earlier ones. -/
def pyDictUpdate (base : PyDict) (upd : PyDict) : PyDict :=
  upd.foldl (fun acc kv => dictSet acc kv.1 kv.2) base

/-- Python truthiness of a value. -/
def Value.truthy : Value → Bool
  | .str s => !(s == "")
  | .int n => !(n == 0)
  | .bool b => b
  | .none => false
  | .list xs => !xs.isEmpty
  | .dict d => !d.isEmpty

/-- Whether the value is a dict (`isinstance(v, dict)`). -/
def Value.isDict : Value → Bool
  | .dict _ => true
  | _ => false

/-- Python `v == s` for a string literal `s`. -/
def Value.eqStr : Value → String → Bool
  | .str t, s => t == s
  | _, _ => false

/-- `.get(k, default)` on a value known (or hoped) to be a dict; callers guard
with `isinstance(v, dict)` so the non-dict case just yields the default. -/
def vGetD (v : Value) (k : String) (dflt : Value) : Value :=
  match v with
  | .dict d => dGetD d k dflt
  | _ => dflt

/-- A single-quote character, used by the Python `repr` rendering. -/
def sq : String := String.singleton (Char.ofNat 39)

mutual

/-- Python `repr` of a value (used when a value is embedded in a container
rendering). -/
def Value.pyRepr : Value → String
  | .str s => sq ++ s ++ sq
  | .int n => toString n
  | .bool b => if b then "True" else "False"
  | .none => "None"
  | .list xs => "[" ++ String.intercalate ", " (pyReprList xs) ++ "]"
  | .dict d => "\x7b" ++ String.intercalate ", " (pyReprEntries d) ++ "\x7d"

/-- `repr` of each element of a list. -/
def pyReprList : List Value → List String
  | [] => []
  | v :: vs => v.pyRepr :: pyReprList vs

/-- `repr` of each entry of a dict. -/
def pyReprEntries : List (String × Value) → List String
  | [] => []
  | kv :: es => (sq ++ kv.1 ++ sq ++ ": " ++ kv.2.pyRepr) :: pyReprEntries es

end

/-- Python `str(v)`, as used in f-string interpolation. -/
def Value.pyStr : Value → String
  | .str s => s
  | v => v.pyRepr

/-- Python `v[:n]`: defined on strings and lists, a `TypeError` otherwise. -/
def pySliceTake (v : Value) (n : Nat) : Except String Value :=
  match v with
  | .str s => .ok (.str (s.take n))
  | .list xs => .ok (.list (xs.take n))
  | _ => .error "TypeError: object is not subscriptable"

/-- Python `for x in v`: lists yield elements, strings yield characters,
dicts yield keys; other values raise `TypeError`. -/
def pyIterate : Value → Except String (List Value)
  | .list xs => .ok xs
  | .str s => .ok (s.toList.map (fun c => .str (String.singleton c)))
  | .dict d => .ok (d.map (fun kv => .str kv.1))
  | _ => .error "TypeError: object is not iterable"

/-- Modelled from the spec (section 3; `app/executor/models.py` is not under
`src/`): Step status is one of pending, running, completed, failed. -/
inductive StepStatus where
  | pending
  | running
  | completed
  | failed
deriving DecidableEq

/-- Modelled from the spec (section 3; `app/executor/models.py` is not under
`src/`): one Step of a Plan.  The source's `action` field is a `StepAction`
enum with the five kinds of section 3; it is modelled by its string value
(the rows in `agent.py` store actions as strings such as `llm_call`), so the
unknown-action branch of `StepExecutor.execute` is representable.
Timestamps are abstract `Nat` instants. -/
structure Step where
  step_id : String
  action : String
  action_data : PyDict
  depends_on : List String
  status : StepStatus
  result : Option Value
  error : Option String
  started_at : Option Nat
  completed_at : Option Nat

/-- Modelled from the spec (section 3; `app/executor/models.py` is not under
`src/`): the ephemeral per-run ExecutionContext — task/user identity, the
input text, the mapping step_id to result, and the steps-executed counter. -/
structure ExecutionContext where
  task_id : Int
  user_id : Int
  input_text : String
  step_results : PyDict
  steps_executed : Nat

/-- Modelled from the spec (section 3): `context.get_step_result(step_id)` —
the stored result of a completed step, `None` when absent.  Stored keys are
step ids (strings), so a non-string key matches nothing. -/
def ExecutionContext.getStepResult (ctx : ExecutionContext) (k : Value) : Value :=
  match k with
  | .str s => (dLookup ctx.step_results s).getD .none
  | _ => .none

/-- Modelled from the spec (section 4.1; `app/kernel` is not under `src/`):
the reason tag passed to `TaskManager.pause`. -/
inductive PauseReason where
  | approval
deriving DecidableEq

/-- One invocation of `TaskManager.pause(task_id, reason, data)` as emitted by
the Step Executor.  The `TaskManager` itself is external to the sources; the
call is recorded rather than interpreted. -/
structure PauseCall where
  task_id : Int
  reason : PauseReason
  data : PyDict

/-- A Python exception escaping a handler or `execute`: either the
`ApprovalRequired` control signal of `step_executor.py` lines 14-20
(carrying message, step_id and draft_content), or an ordinary exception
rendered as its message string. -/
inductive PyExc where
  | approvalRequired (message : Value) (stepId : String) (draftContent : Value)
  | err (msg : String)

/-- The observable outcome of running one handler: its returned value or
raised exception, the `TaskManager.pause` calls it made, and the tool-handler
invocations it performed (tool name and the keyword arguments passed). -/
structure HandlerOut where
  res : Except PyExc Value
  pauses : List PauseCall
  toolCalls : List (Value × PyDict)

/-- The completion provider's reply (spec section 6): content, model name and
token count. -/
structure LLMResponse where
  content : String
  model : String
  total_tokens : Nat

/-- The external LLM service.  `complete` abstracts lines 219-246 of
`_handle_llm_call`: prompt construction plus the blocking provider call,
all of which sit inside the handler's `try` block; an exception raised
there is the `Except.error` case. -/
structure LLMService where
  complete : Step → ExecutionContext → Except String LLMResponse

/-- Modelled from the spec (section 6; `app/tools/registry.py` is not under
`src/`): a registry entry is a handler plus its declared parameter names
(`inspect.signature(handler).parameters.keys()`).  The handler receives
keyword arguments and may raise. -/
structure ToolSpec where
  paramNames : List String
  handler : PyDict → Except String Value

/-- The Step Executor with its collaborators: the optional LLM service, the
tool registry lookup, and the post-processing applied to generated posts
(`_markdown_to_html` composed with `_apply_style_postprocess` — text munging
internal to the `try` block, abstracted as a fallible function of the content
and the `smm_context` value). -/
structure StepExecutor where
  llm_service : Option LLMService
  tool_registry : String → Option ToolSpec
  post : String → Value → Except String String

/-- Registry lookup keyed by the `tool` value: only a string can name a
registered tool. -/
def regLookupV (reg : String → Option ToolSpec) (v : Value) : Option ToolSpec :=
  match v with
  | .str s => reg s
  | _ => Option.none

/-- `step.action_data.get("tool", "unknown")`. -/
def toolNameOf (step : Step) : Value :=
  dGetD step.action_data "tool" (.str "unknown")

/-- `step.action_data.get("purpose", "general")`. -/
def purposeOf (step : Step) : Value :=
  dGetD step.action_data "purpose" (.str "general")

/-- `step.action_data.get("message", "Approval required")`. -/
def approvalMessage (step : Step) : Value :=
  dGetD step.action_data "message" (.str "Approval required")

/-- The draft content an APPROVAL step attaches to its pause payload: the
`response` entry of the prior step named by `draft_step_id`, when that
step has a (truthy) stored result; `None` otherwise. -/
def approvalDraft (step : Step) (ctx : ExecutionContext) : Value :=
  let dsid := dGetD step.action_data "draft_step_id" .none
  if dsid.truthy then
    let dr := ctx.getStepResult dsid
    if dr.truthy then vGetD dr "response" .none else .none
  else .none

/-- The `try` block of `_handle_llm_call` when a service is configured
(lines 218-261): prompt construction plus the provider call (abstracted in
`svc.complete`), then the `smm_generate` post-processing, then the success
dict `purpose`/`response`/`model`/`tokens_used`. -/
def tryLLM (svc : LLMService) (post : String → Value → Except String String)
    (purpose smm_context : Value) (step : Step) (ctx : ExecutionContext) :
    Except String Value :=
  match svc.complete step ctx with
  | .error e => .error e
  | .ok resp =>
    match purpose with
    | .str s =>
      match (if s.startsWith "smm_generate" then post resp.content smm_context
             else .ok resp.content) with
      | .error e => .error e
      | .ok content =>
        .ok (.dict [("purpose", purpose), ("response", .str content),
                    ("model", .str resp.model), ("tokens_used", .int (resp.total_tokens : Int))])
    | _ => .error "AttributeError: object has no attribute startswith"

/-- The mock branch of `_handle_llm_call` (lines 267-282): the five canned
texts (all computed eagerly, so a truthy non-sliceable `input_text` raises),
then the response dict with model `mock` and zero tokens. -/
def mockLLM (purpose input_text : Value) : Except String Value :=
  let headE : Except String String :=
    if input_text.truthy then
      match pySliceTake input_text 50 with
      | .error e => .error e
      | .ok s => .ok s.pyStr
    else .ok "N/A"
  let head100E : Except String String :=
    if input_text.truthy then
      match pySliceTake input_text 100 with
      | .error e => .error e
      | .ok s => .ok s.pyStr
    else .ok "N/A"
  match headE with
  | .error e => .error e
  | .ok head =>
    match head100E with
    | .error e => .error e
    | .ok head100 =>
      let it := input_text.pyStr
      let pp := purpose.pyStr
      let response :=
        if purpose.eqStr "analyze" then s!"Analysis of: {head}..."
        else if purpose.eqStr "research" then s!"Research findings for: {head}"
        else if purpose.eqStr "smm_generate_post" then
          s!"Пост про {it}:\n\nЭто тестовый пост. #тест"
        else if purpose.eqStr "smm_analyze_style" then
          "Стиль: дерзкий, короткие посты, много эмодзи"
        else if purpose.eqStr "summarize" then s!"Summary: {head100}..."
        else s!"Mock response for {pp}"
      .ok (.dict [("purpose", purpose), ("response", .str response),
                  ("model", .str "mock"), ("tokens_used", .int 0)])

/-- `StepExecutor._handle_llm_call` (lines 197-282): with a configured service,
run the `try` block and recover any exception into the error-bearing dict
`purpose`/`error`; without a service, produce the mock response. -/
def handle_llm_call (svc : Option LLMService)
    (post : String → Value → Except String String)
    (step : Step) (ctx : ExecutionContext) : HandlerOut :=
  let purpose := purposeOf step
  let adInput := dGetD step.action_data "input_text" .none
  let input_text := if adInput.truthy then adInput else .str ctx.input_text
  let smm_context := dGetD step.action_data "smm_context" (.str "")
  match svc with
  | some s =>
    match tryLLM s post purpose smm_context step ctx with
    | .ok v => ⟨.ok v, [], []⟩
    | .error e => ⟨.ok (.dict [("purpose", purpose), ("error", .str e)]), [], []⟩
  | Option.none =>
    match mockLLM purpose input_text with
    | .ok v => ⟨.ok v, [], []⟩
    | .error e => ⟨.error (.err e), [], []⟩

/-- Lines 626-651 of `_handle_tool_call`: the tool name, the keyword-argument
map assembled from `action_data` minus `tool`/`source_step_id`, the implicit
`user_id` from the context, and the `compute_channel_metrics`/`memory_store`
special cases that pull data from the step named by `source_step_id`.  The
`memory_store` case slices the prior `response` content, which raises when
that content is not sliceable — the one uncaught exception site of the
handler. -/
def assembleToolParams (step : Step) (ctx : ExecutionContext) :
    Except String (Value × PyDict) :=
  let tool_name := toolNameOf step
  let params0 := step.action_data.filter
    (fun kv => !(kv.1 == "tool") && !(kv.1 == "source_step_id"))
  let params1 :=
    if params0.any (fun kv => kv.1 == "user_id") then params0
    else params0 ++ [("user_id", Value.int ctx.user_id)]
  let source_step_id := dGetD step.action_data "source_step_id" .none
  let params2 :=
    if tool_name.eqStr "compute_channel_metrics" && source_step_id.truthy then
      let source_result := ctx.getStepResult source_step_id
      if source_result.truthy && source_result.isDict then
        dictSet params1 "posts" (vGetD source_result "posts" (.list []))
      else params1
    else params1
  if tool_name.eqStr "memory_store" && source_step_id.truthy then
    let source_result := ctx.getStepResult source_step_id
    if source_result.truthy && source_result.isDict then
      let response_content := vGetD source_result "response" (.str "")
      match pySliceTake response_content 1500 with
      | .error e => .error e
      | .ok sliced =>
        let channel := dGetD step.action_data "input_text" (.str "channel")
        let cs := channel.pyStr
        let ss := sliced.pyStr
        let p := dictSet params2 "content" (.str s!"Стиль канала {cs}: {ss}")
        .ok (tool_name,
             dictSet p "metadata"
               (.dict [("analysis_version", .str "v2"), ("channel", channel)]))
    else .ok (tool_name, params2)
  else .ok (tool_name, params2)

/-- The deterministic placeholder for an unregistered tool (lines 671-687):
specific mock payloads for `web_fetch` and `telegram_publish`, otherwise
`tool`/`result: mock`; a function of the tool name and `action_data` only. -/
def mockToolResult (tool_name : Value) (ad : PyDict) : Value :=
  if tool_name.eqStr "web_fetch" then
    .dict [("tool", .str "web_fetch"), ("content", .str "Fetched page content..."),
           ("url", dGetD ad "url" .none)]
  else if tool_name.eqStr "telegram_publish" then
    .dict [("tool", .str "telegram_publish"), ("success", .bool true),
           ("message_id", .int 12345), ("channel", dGetD ad "channel" .none)]
  else .dict [("tool", tool_name), ("result", .str "mock")]

/-- `StepExecutor._handle_tool_call` (lines 620-687): assemble the arguments;
for a registered tool filter them to the declared parameter set and invoke the
handler inside `try`, recovering any exception (including a non-dict return
hitting the `**result` unpacking) into the `tool`/`error` dict; for an
unregistered tool return the mock payload. -/
def handle_tool_call (reg : String → Option ToolSpec)
    (step : Step) (ctx : ExecutionContext) : HandlerOut :=
  match assembleToolParams step ctx with
  | .error e => ⟨.error (.err e), [], []⟩
  | .ok (tool_name, params) =>
    match regLookupV reg tool_name with
    | some spec =>
      let filtered := params.filter (fun kv => decide (kv.1 ∈ spec.paramNames))
      match spec.handler filtered with
      | .error e =>
        ⟨.ok (.dict [("tool", tool_name), ("error", .str e)]), [], [(tool_name, filtered)]⟩
      | .ok r =>
        match r with
        | .dict d =>
          ⟨.ok (.dict (pyDictUpdate [("tool", tool_name)] d)), [], [(tool_name, filtered)]⟩
        | _ =>
          ⟨.ok (.dict [("tool", tool_name),
                       ("error", .str "TypeError: argument after ** must be a mapping")]),
           [], [(tool_name, filtered)]⟩
    | Option.none => ⟨.ok (mockToolResult tool_name step.action_data), [], []⟩

/-- `StepExecutor._handle_approval` (lines 689-717): fetch the message and the
optional draft content, call `TaskManager.pause` with the payload
`step_id`/`message`/`draft_content`, then raise `ApprovalRequired`.  A truthy
stored draft result that is not a dict raises before `pause` is reached
(`.get` on a non-dict). -/
def handle_approval (step : Step) (ctx : ExecutionContext) : HandlerOut :=
  let message := approvalMessage step
  let dsid := dGetD step.action_data "draft_step_id" .none
  let draftE : Except String Value :=
    if dsid.truthy then
      let dr := ctx.getStepResult dsid
      if dr.truthy then
        match dr with
        | .dict d => .ok (dGetD d "response" .none)
        | _ => .error "AttributeError: object has no attribute get"
      else .ok .none
    else .ok .none
  match draftE with
  | .error e => ⟨.error (.err e), [], []⟩
  | .ok draft =>
    ⟨.error (.approvalRequired message step.step_id draft),
     [⟨ctx.task_id, PauseReason.approval,
       [("step_id", .str step.step_id), ("message", message), ("draft_content", draft)]⟩],
     []⟩

/-- `StepExecutor._handle_condition` (lines 719-730): the condition expression
from `action_data` (default `true`); the MVP evaluation is the constant
`True`; branch is `true` when result holds, `false` otherwise. -/
def handle_condition (step : Step) (_ctx : ExecutionContext) : HandlerOut :=
  let condition := dGetD step.action_data "condition" (.str "true")
  let result := true
  ⟨.ok (.dict [("condition", condition), ("result", .bool result),
               ("branch", .str (if result then "true" else "false"))]), [], []⟩

/-- `StepExecutor._handle_aggregate` (lines 732-745): collect the truthy
stored results of the steps named in `step_ids` into one dict, with its
size as `count`. -/
def handle_aggregate (step : Step) (ctx : ExecutionContext) : HandlerOut :=
  let step_ids := dGetD step.action_data "step_ids" (.list [])
  match pyIterate step_ids with
  | .error e => ⟨.error (.err e), [], []⟩
  | .ok ids =>
    let aggregated := ids.foldl (fun acc sid =>
      let r := ctx.getStepResult sid
      if r.truthy then
        match sid with
        | .str s => dictSet acc s r
        | _ => acc
      else acc) ([] : PyDict)
    ⟨.ok (.dict [("aggregated", .dict aggregated),
                 ("count", .int (aggregated.length : Int))]), [], []⟩

/-- The handler registry of `StepExecutor.__init__` consulted by
`self._handlers.get(step.action)` (lines 130-137 and 161). -/
def StepExecutor.handlersGet (ex : StepExecutor) (action : String) :
    Option (Step → ExecutionContext → HandlerOut) :=
  if action = "llm_call" then some (handle_llm_call ex.llm_service ex.post)
  else if action = "tool_call" then some (handle_tool_call ex.tool_registry)
  else if action = "approval" then some handle_approval
  else if action = "condition" then some handle_condition
  else if action = "aggregate" then some handle_aggregate
  else Option.none

/-- The step as mutated before dispatch (lines 165-167): status running,
`started_at` stamped. -/
def runningStep (step : Step) (t1 : Nat) : Step :=
  { step with status := .running, started_at := some t1 }

/-- The observable outcome of `StepExecutor.execute`: the returned value or
the exception that unwinds (`Except.error`), the step and context as left
behind, and the recorded external calls. -/
structure ExecOut where
  result : Except PyExc Value
  step : Step
  ctx : ExecutionContext
  pauses : List PauseCall
  toolCalls : List (Value × PyDict)

/-- `StepExecutor.execute` (lines 146-193): look up the handler (raising
`ValueError` before any state change when the action is unknown); mark the
step running; on a normal handler return mark the step completed, record the
result in the context and bump the counter; on `ApprovalRequired` reset the
step to pending with `started_at` cleared and re-raise; on any other
exception mark the step failed and re-raise.  `t1`/`t2` are the two
`datetime.now` instants. -/
def StepExecutor.execute (ex : StepExecutor) (t1 t2 : Nat)
    (step : Step) (ctx : ExecutionContext) : ExecOut :=
  match ex.handlersGet step.action with
  | Option.none =>
    ⟨.error (.err ("Unknown step action: " ++ step.action)), step, ctx, [], []⟩
  | some h =>
    let step1 := runningStep step t1
    let hout := h step1 ctx
    match hout.res with
    | .ok r =>
      ⟨.ok r,
       { step1 with status := .completed, result := some r, completed_at := some t2 },
       { ctx with step_results := dictSet ctx.step_results step.step_id r,
                  steps_executed := ctx.steps_executed + 1 },
       hout.pauses, hout.toolCalls⟩
    | .error (.approvalRequired m sid d) =>
      ⟨.error (.approvalRequired m sid d),
       { step1 with status := .pending, started_at := Option.none },
       ctx, hout.pauses, hout.toolCalls⟩
    | .error (.err e) =>
      ⟨.error (.err e),
       { step1 with status := .failed, error := some e, completed_at := some t2 },
       ctx, hout.pauses, hout.toolCalls⟩

/-- Whether the `response` entry of a stored step result, if any, is a string
(every handler of the system stores its `response` as text). -/
def Value.respOk : Value → Bool
  | .dict d =>
    match dLookup d "response" with
    | some (.str _) => true
    | some _ => false
    | Option.none => true
  | _ => true

/-- Context well-formedness: every stored step result is a dict whose
`response` entry, if present, is a string.  Every value the four
result-returning handlers can store satisfies this. -/
def WFResults (ctx : ExecutionContext) : Bool :=
  ctx.step_results.all (fun kv => kv.2.isDict && kv.2.respOk)

/-- One operation touching the Task row, classified by how it is performed:
through the Task Manager API, or as a direct SQL write of the Task status
from outside the Task Manager. -/
inductive TaskWrite where
  | apiEnqueue (task_type : String)
  | apiPause
  | apiSucceed
  | apiFail
  | apiGetTask
  | directStatusUpdate (newStatus : String) (locked_by : String)
  | runExecutor
deriving DecidableEq

/-- The Task-row operations performed by `SMMAgent._analyze_channel_via_executor`
(`agent.py` lines 176-204): enqueue through the Task Manager, then a raw
`UPDATE tasks SET status = running, locked_by = smm_agent, ...` issued
directly on the store, then fetch and run. -/
def analyze_channel_via_executor_taskOps : List TaskWrite :=
  [.apiEnqueue "smm_analyze", .directStatusUpdate "running" "smm_agent",
   .apiGetTask, .runExecutor]

/-- The Task-row operations performed by `SMMAgent.generate_post`
(`agent.py` lines 699-734): enqueue through the Task Manager, then the same
raw status update issued directly on the store, then fetch and run. -/
def generate_post_taskOps : List TaskWrite :=
  [.apiEnqueue "smm_generate", .directStatusUpdate "running" "smm_agent",
   .apiGetTask, .runExecutor]

/-- Whether an operation writes Task status directly, bypassing the
Task Manager API. -/
def TaskWrite.isDirectStatusWrite : TaskWrite → Bool
  | .directStatusUpdate _ _ => true
  | _ => false

/-- The Task-row operations one `StepExecutor.execute` run performs: exactly
its `TaskManager.pause` invocations. -/
def stepExecutorTaskWrites (out : ExecOut) : List TaskWrite :=
  out.pauses.map (fun _ => TaskWrite.apiPause)

/-- Modelled from the spec: the boolean value of a CONDITION expression "over
context/action_data" (section 4.4).  The spec fixes no expression language,
so only the boolean literals are interpreted; everything else is left
unspecified. -/
def specCondEval (cond : String) : Option Bool :=
  if cond = "true" then some true
  else if cond = "false" then some false
  else Option.none

/-- A Step Executor with no LLM service, an empty tool registry and identity
post-processing, for concrete runs. -/
def exW0 : StepExecutor :=
  ⟨Option.none, fun _ => Option.none, fun s _ => .ok s⟩

/-- An empty execution context for concrete runs. -/
def ctx0 : ExecutionContext := ⟨7, 42, "hello", [], 0⟩

/-- A fresh pending step with the given id, action and `action_data`. -/
def mkStep (sid action : String) (ad : PyDict) : Step :=
  ⟨sid, action, ad, [], .pending, Option.none, Option.none, Option.none, Option.none⟩

/-- A context holding one completed draft step, for concrete approval runs. -/
def ctxD : ExecutionContext :=
  ⟨7, 42, "hello", [("d1", .dict [("response", .str "the draft")])], 1⟩

/-- An approval step referencing the stored draft. -/
def stepApD : Step :=
  mkStep "ap2" "approval" [("draft_step_id", .str "d1"), ("message", .str "ok?")]

/-- An LLM service that always raises, for concrete runs. -/
def svcFail : LLMService := ⟨fun _ _ => .error "provider down"⟩

/-- A Step Executor whose LLM service always raises, for concrete runs. -/
def exLLMFail : StepExecutor :=
  ⟨some svcFail, fun _ => Option.none, fun s _ => .ok s⟩

/-- A registry entry (declared parameters `x` and `user_id`) whose handler
always raises, for concrete runs. -/
def failSpec : ToolSpec := ⟨["x", "user_id"], fun _ => .error "tool down"⟩

/-- A Step Executor with one registered tool `t` bound to `failSpec`. -/
def exToolFail : StepExecutor :=
  ⟨Option.none,
   fun n => if n = "t" then some failSpec else Option.none,
   fun s _ => .ok s⟩

/-- A registry entry (declared parameters `x` and `user_id`) whose handler
echoes its arguments, for concrete runs. -/
def echoSpec : ToolSpec := ⟨["x", "user_id"], fun args => .ok (.dict [("got", .dict args)])⟩

/-- A Step Executor with one registered tool `t` bound to `echoSpec`. -/
def exToolEcho : StepExecutor :=
  ⟨Option.none,
   fun n => if n = "t" then some echoSpec else Option.none,
   fun s _ => .ok s⟩

/-- A tool-call step naming tool `t` with one declared and one undeclared
argument. -/
def stepToolT : Step :=
  mkStep "t2" "tool_call" [("tool", .str "t"), ("x", .int 1), ("junk", .int 2)]

/-! ## Helper lemmas -/

@[simp] theorem runningStep_step_id (step : Step) (t1 : Nat) :
    (runningStep step t1).step_id = step.step_id := rfl

@[simp] theorem runningStep_action (step : Step) (t1 : Nat) :
    (runningStep step t1).action = step.action := rfl

@[simp] theorem runningStep_action_data (step : Step) (t1 : Nat) :
    (runningStep step t1).action_data = step.action_data := rfl

@[simp] theorem runningStep_result (step : Step) (t1 : Nat) :
    (runningStep step t1).result = step.result := rfl

@[simp] theorem runningStep_error (step : Step) (t1 : Nat) :
    (runningStep step t1).error = step.error := rfl

theorem assembleToolParams_runningStep (step : Step) (t1 : Nat) (ctx : ExecutionContext) :
    assembleToolParams (runningStep step t1) ctx = assembleToolParams step ctx := rfl

theorem handle_approval_runningStep (step : Step) (t1 : Nat) (ctx : ExecutionContext) :
    handle_approval (runningStep step t1) ctx = handle_approval step ctx := rfl

theorem Value.isDict_exists {v : Value} (h : v.isDict = true) :
    ∃ d, v = .dict d := by
  cases v <;> simp [Value.isDict] at h ⊢

theorem getStepResult_wf {ctx : ExecutionContext} (hw : WFResults ctx = true) (k : Value) :
    ctx.getStepResult k = Value.none ∨
      ((ctx.getStepResult k).isDict = true ∧ (ctx.getStepResult k).respOk = true) := by
  cases k with
  | str s =>
    cases hfind : dLookup ctx.step_results s with
    | none =>
      left
      show (dLookup ctx.step_results s).getD .none = Value.none
      rw [hfind]
      rfl
    | some v =>
      right
      have hg : ctx.getStepResult (Value.str s) = v := by
        show (dLookup ctx.step_results s).getD .none = v
        rw [hfind]
        rfl
      rw [hg]
      unfold dLookup at hfind
      cases hfind2 : ctx.step_results.find? (fun kv => kv.1 == s) with
      | none => rw [hfind2] at hfind; simp at hfind
      | some kv =>
        rw [hfind2] at hfind
        simp at hfind
        have hmem := List.mem_of_find?_eq_some hfind2
        have hall := (List.all_eq_true.mp hw) kv hmem
        simp only [Bool.and_eq_true] at hall
        rw [← hfind]
        exact hall
  | int n => left; rfl
  | bool b => left; rfl
  | none => left; rfl
  | list xs => left; rfl
  | dict d => left; rfl

theorem handle_approval_wf (step : Step) (ctx : ExecutionContext)
    (hw : WFResults ctx = true) :
    handle_approval step ctx =
      ⟨.error (.approvalRequired (approvalMessage step) step.step_id (approvalDraft step ctx)),
       [⟨ctx.task_id, PauseReason.approval,
         [("step_id", .str step.step_id), ("message", approvalMessage step),
          ("draft_content", approvalDraft step ctx)]⟩],
       []⟩ := by
  unfold handle_approval approvalDraft
  by_cases hd : (dGetD step.action_data "draft_step_id" .none).truthy
  · simp only [hd, if_true]
    rcases getStepResult_wf hw (dGetD step.action_data "draft_step_id" .none) with hnone | ⟨hdict, _⟩
    · rw [hnone]
      simp [Value.truthy]
    · rcases Value.isDict_exists hdict with ⟨d, hd2⟩
      rw [hd2]
      by_cases ht : (Value.dict d).truthy
      · simp only [ht, if_true, vGetD]
      · simp only [ht, if_false]
        simp [Bool.not_eq_true] at ht
        simp [ht]
  · simp [hd]

/-- An unregistered action string yields no handler from the dispatch table. -/
theorem handlersGet_eq_none (ex : StepExecutor) (a : String)
    (h : a ∉ ["llm_call", "tool_call", "approval", "condition", "aggregate"]) :
    ex.handlersGet a = Option.none := by
  simp only [List.mem_cons, List.mem_singleton, not_or] at h
  obtain ⟨h1, h2, h3, h4, h5⟩ := h
  simp [StepExecutor.handlersGet, h1, h2, h3, h4, h5]

/-! ## Claim theorems -/

/-- C10: For every step whose action is not one of the five kinds in the
dispatch table, `execute` raises a `ValueError` before any state change: the
step is returned exactly as it was (never marked running), the execution
context is untouched, and no pause or tool call is performed. -/
theorem execute_unknown_action_no_state_change (ex : StepExecutor) (t1 t2 : Nat)
    (step : Step) (ctx : ExecutionContext)
    (h : step.action ∉ ["llm_call", "tool_call", "approval", "condition", "aggregate"]) :
    (ex.execute t1 t2 step ctx).result
        = .error (.err ("Unknown step action: " ++ step.action))
    ∧ (ex.execute t1 t2 step ctx).step = step
    ∧ (ex.execute t1 t2 step ctx).ctx = ctx
    ∧ (ex.execute t1 t2 step ctx).pauses = []
    ∧ (ex.execute t1 t2 step ctx).toolCalls = [] := by
  have hl := handlersGet_eq_none ex step.action h
  simp [StepExecutor.execute, hl]

/-- Witness for C10 at a concrete unknown action. -/
theorem execute_unknown_action_no_state_change_witness :
    ("weird" ∉ ["llm_call", "tool_call", "approval", "condition", "aggregate"])
    ∧ ((exW0.execute 1 2 (mkStep "x" "weird" []) ctx0).result
        = .error (.err ("Unknown step action: " ++ "weird"))
      ∧ (exW0.execute 1 2 (mkStep "x" "weird" []) ctx0).step = mkStep "x" "weird" []
      ∧ (exW0.execute 1 2 (mkStep "x" "weird" []) ctx0).ctx = ctx0
      ∧ (exW0.execute 1 2 (mkStep "x" "weird" []) ctx0).pauses = []
      ∧ (exW0.execute 1 2 (mkStep "x" "weird" []) ctx0).toolCalls = []) :=
  ⟨by decide,
   execute_unknown_action_no_state_change exW0 1 2 (mkStep "x" "weird" []) ctx0 (by decide)⟩

/-- C3 counterexample: on an APPROVAL step, `execute` does not return a
Paused value — the pause reaches the caller as the raised `ApprovalRequired`
exception (the `Except.error` channel of the embedding), i.e. suspension is
signalled by a thrown signal whose unwinding the caller must catch. -/
theorem pause_is_a_thrown_signal_cx :
    (exW0.execute 1 2 (mkStep "ap1" "approval" []) ctx0).result
      = .error (.approvalRequired (.str "Approval required") "ap1" .none)
    ∧ (exW0.execute 1 2 (mkStep "ap1" "approval" []) ctx0).pauses
      = [⟨7, PauseReason.approval,
          [("step_id", .str "ap1"), ("message", .str "Approval required"),
           ("draft_content", .none)]⟩] :=
  ⟨rfl, rfl⟩

/-- C3 (amended): `execute` has no explicit three-way result type; it either
returns the handler's value normally (step completed), or lets the raised
`ApprovalRequired` signal unwind to the caller (step reset to pending), or
lets any other raised exception unwind (everything on the `Except.error`
channel of the embedding). -/
theorem execute_outcome_trichotomy (ex : StepExecutor) (t1 t2 : Nat)
    (step : Step) (ctx : ExecutionContext) :
    (∃ r, (ex.execute t1 t2 step ctx).result = .ok r
          ∧ (ex.execute t1 t2 step ctx).step.status = .completed)
    ∨ (∃ m sid d, (ex.execute t1 t2 step ctx).result = .error (.approvalRequired m sid d)
          ∧ (ex.execute t1 t2 step ctx).step.status = .pending)
    ∨ (∃ e, (ex.execute t1 t2 step ctx).result = .error (.err e)) := by
  cases hh : ex.handlersGet step.action with
  | none =>
    right; right
    exact ⟨"Unknown step action: " ++ step.action, by simp [StepExecutor.execute, hh]⟩
  | some h =>
    cases hr : (h (runningStep step t1) ctx).res with
    | ok r =>
      left
      exact ⟨r, by simp [StepExecutor.execute, hh, hr]⟩
    | error pe =>
      cases pe with
      | approvalRequired m sid d =>
        right; left
        exact ⟨m, sid, d, by simp [StepExecutor.execute, hh, hr]⟩
      | err e =>
        right; right
        exact ⟨e, by simp [StepExecutor.execute, hh, hr]⟩

/-- C9 counterexample: a CONDITION step whose expression is the boolean
literal `false` (whose value per the spec's evaluation is `False`) still
yields `result: True` and `branch: true` — the expression is not evaluated. -/
theorem condition_not_evaluated_cx :
    (exW0.execute 1 2 (mkStep "c1" "condition" [("condition", .str "false")]) ctx0).result
      = .ok (.dict [("condition", .str "false"), ("result", .bool true),
                    ("branch", .str "true")])
    ∧ specCondEval "false" = some false :=
  ⟨rfl, rfl⟩

/-- C9 (amended): for every CONDITION step, `execute` returns a dict with
exactly the keys `condition` (the expression from `action_data`, default
`true`), `result` and `branch`, where `result` is the constant `True` (the
MVP performs no evaluation of the expression) and `branch` is `true` when
`result` holds and `false` otherwise — hence always `true` — and the step
completes. -/
theorem condition_returns_constant_true (ex : StepExecutor) (t1 t2 : Nat)
    (step : Step) (ctx : ExecutionContext) (ha : step.action = "condition") :
    (ex.execute t1 t2 step ctx).result
      = .ok (.dict [("condition", dGetD step.action_data "condition" (.str "true")),
                    ("result", .bool true), ("branch", .str "true")])
    ∧ (ex.execute t1 t2 step ctx).step.status = .completed := by
  have hl : ex.handlersGet step.action = some handle_condition := by
    simp [StepExecutor.handlersGet, ha]
  simp [StepExecutor.execute, hl, handle_condition]

/-- Witness for the amended C9 at a concrete CONDITION step. -/
theorem condition_returns_constant_true_witness :
    ((mkStep "c2" "condition" []).action = "condition")
    ∧ ((exW0.execute 1 2 (mkStep "c2" "condition" []) ctx0).result
        = .ok (.dict [("condition", dGetD (mkStep "c2" "condition" []).action_data
                                      "condition" (.str "true")),
                      ("result", .bool true), ("branch", .str "true")])
      ∧ (exW0.execute 1 2 (mkStep "c2" "condition" []) ctx0).step.status = .completed) :=
  ⟨rfl, condition_returns_constant_true exW0 1 2 (mkStep "c2" "condition" []) ctx0 rfl⟩

/-- C2: whenever the dispatched handler signals an approval pause, `execute`
resets the step to pending with `started_at` cleared, leaves the step's
result and error untouched (in particular the step is neither completed nor
failed and no result is recorded), leaves the execution context — stored
results and the steps-executed counter — unchanged, and propagates the pause
signal to the caller. -/
theorem approval_pause_resets_step (ex : StepExecutor) (t1 t2 : Nat)
    (step : Step) (ctx : ExecutionContext)
    (h : Step → ExecutionContext → HandlerOut) (m : Value) (sid : String) (d : Value)
    (hl : ex.handlersGet step.action = some h)
    (hr : (h (runningStep step t1) ctx).res = .error (.approvalRequired m sid d)) :
    (ex.execute t1 t2 step ctx).result = .error (.approvalRequired m sid d)
    ∧ (ex.execute t1 t2 step ctx).step.status = .pending
    ∧ (ex.execute t1 t2 step ctx).step.started_at = Option.none
    ∧ (ex.execute t1 t2 step ctx).step.result = step.result
    ∧ (ex.execute t1 t2 step ctx).step.error = step.error
    ∧ (ex.execute t1 t2 step ctx).ctx = ctx := by
  simp only [StepExecutor.execute, hl]
  rw [hr]
  simp [runningStep]

/-- Witness for C2: a concrete APPROVAL step through the real dispatch. -/
theorem approval_pause_resets_step_witness :
    (exW0.handlersGet (mkStep "ap1" "approval" []).action = some handle_approval)
    ∧ ((handle_approval (runningStep (mkStep "ap1" "approval" []) 1) ctx0).res
        = .error (.approvalRequired (.str "Approval required") "ap1" .none))
    ∧ ((exW0.execute 1 2 (mkStep "ap1" "approval" []) ctx0).result
        = .error (.approvalRequired (.str "Approval required") "ap1" .none)
      ∧ (exW0.execute 1 2 (mkStep "ap1" "approval" []) ctx0).step.status = .pending
      ∧ (exW0.execute 1 2 (mkStep "ap1" "approval" []) ctx0).step.started_at = Option.none
      ∧ (exW0.execute 1 2 (mkStep "ap1" "approval" []) ctx0).step.result
          = (mkStep "ap1" "approval" []).result
      ∧ (exW0.execute 1 2 (mkStep "ap1" "approval" []) ctx0).step.error
          = (mkStep "ap1" "approval" []).error
      ∧ (exW0.execute 1 2 (mkStep "ap1" "approval" []) ctx0).ctx = ctx0) :=
  ⟨rfl, rfl,
   approval_pause_resets_step exW0 1 2 (mkStep "ap1" "approval" []) ctx0
     handle_approval (.str "Approval required") "ap1" .none rfl rfl⟩

/-- C7: when the dispatched handler returns normally, `execute` marks the step
completed with the handler's result and a `completed_at` stamp, records the
result in the context under the step's id, increments the steps-executed
counter by exactly one and returns the result; when the handler raises a
non-approval exception, `execute` marks the step failed with the error string
and a `completed_at` stamp, leaves the context unchanged and re-raises so the
failure propagates. -/
theorem dispatch_success_and_failure_effects (ex : StepExecutor) (t1 t2 : Nat)
    (step : Step) (ctx : ExecutionContext)
    (h : Step → ExecutionContext → HandlerOut) (r : Value) (e : String)
    (hl : ex.handlersGet step.action = some h) :
    ((h (runningStep step t1) ctx).res = .ok r →
      (ex.execute t1 t2 step ctx).result = .ok r
      ∧ (ex.execute t1 t2 step ctx).step.status = .completed
      ∧ (ex.execute t1 t2 step ctx).step.result = some r
      ∧ (ex.execute t1 t2 step ctx).step.completed_at = some t2
      ∧ (ex.execute t1 t2 step ctx).ctx.step_results
          = dictSet ctx.step_results step.step_id r
      ∧ (ex.execute t1 t2 step ctx).ctx.steps_executed = ctx.steps_executed + 1)
    ∧ ((h (runningStep step t1) ctx).res = .error (.err e) →
      (ex.execute t1 t2 step ctx).result = .error (.err e)
      ∧ (ex.execute t1 t2 step ctx).step.status = .failed
      ∧ (ex.execute t1 t2 step ctx).step.error = some e
      ∧ (ex.execute t1 t2 step ctx).step.completed_at = some t2
      ∧ (ex.execute t1 t2 step ctx).ctx = ctx) := by
  constructor
  · intro hr
    simp only [StepExecutor.execute, hl]
    rw [hr]
    simp [runningStep]
  · intro hr
    simp only [StepExecutor.execute, hl]
    rw [hr]
    simp [runningStep]

/-- Witness for C7: the success branch at a concrete CONDITION step and the
failure branch at a concrete LLM_CALL mock run whose `input_text` is a
non-sliceable int (the uncaught `TypeError` of the mock branch). -/
theorem dispatch_success_and_failure_effects_witness :
    ((exW0.handlersGet (mkStep "c3" "condition" []).action = some handle_condition)
     ∧ (exW0.execute 1 2 (mkStep "c3" "condition" []) ctx0).result
        = .ok (.dict [("condition", .str "true"), ("result", .bool true),
                      ("branch", .str "true")])
     ∧ (exW0.execute 1 2 (mkStep "c3" "condition" []) ctx0).ctx.steps_executed
        = ctx0.steps_executed + 1)
    ∧ ((exW0.handlersGet (mkStep "l1" "llm_call" [("input_text", .int 5)]).action
        = some (handle_llm_call exW0.llm_service exW0.post))
     ∧ (exW0.execute 1 2 (mkStep "l1" "llm_call" [("input_text", .int 5)]) ctx0).result
        = .error (.err "TypeError: object is not subscriptable")
     ∧ (exW0.execute 1 2 (mkStep "l1" "llm_call" [("input_text", .int 5)]) ctx0).step.status
        = .failed) := by
  constructor
  · refine ⟨rfl, ?_, ?_⟩
    · exact ((dispatch_success_and_failure_effects exW0 1 2 (mkStep "c3" "condition" []) ctx0
        handle_condition
        (.dict [("condition", .str "true"), ("result", .bool true), ("branch", .str "true")])
        "x" rfl).1 rfl).1
    · exact ((dispatch_success_and_failure_effects exW0 1 2 (mkStep "c3" "condition" []) ctx0
        handle_condition
        (.dict [("condition", .str "true"), ("result", .bool true), ("branch", .str "true")])
        "x" rfl).1 rfl).2.2.2.2.2
  · refine ⟨rfl, ?_, ?_⟩
    · exact ((dispatch_success_and_failure_effects exW0 1 2
        (mkStep "l1" "llm_call" [("input_text", .int 5)]) ctx0
        (handle_llm_call exW0.llm_service exW0.post) (.none)
        "TypeError: object is not subscriptable" rfl).2 rfl).1
    · exact ((dispatch_success_and_failure_effects exW0 1 2
        (mkStep "l1" "llm_call" [("input_text", .int 5)]) ctx0
        (handle_llm_call exW0.llm_service exW0.post) (.none)
        "TypeError: object is not subscriptable" rfl).2 rfl).2.1

/-- C6 counterexample: the SMM Agent — a component other than the Task
Manager — transitions Tasks to running by writing Task status directly to
the store (raw SQL UPDATE), bypassing the Task Manager API, in both
`_analyze_channel_via_executor` and `generate_post`. -/
theorem smm_agent_writes_task_status_directly_cx :
    TaskWrite.directStatusUpdate "running" "smm_agent" ∈ generate_post_taskOps
    ∧ TaskWrite.directStatusUpdate "running" "smm_agent" ∈ analyze_channel_via_executor_taskOps
    ∧ generate_post_taskOps.any TaskWrite.isDirectStatusWrite = true := by
  decide

/-- C6 (amended): the Step Executor changes Task state only through the Task
Manager API — every Task-row operation of an `execute` run is a
`TaskManager.pause` call, never a direct status write; the SMM Agent,
however, does write Task status directly (see the counterexample). -/
theorem step_executor_task_writes_api_only (ex : StepExecutor) (t1 t2 : Nat)
    (step : Step) (ctx : ExecutionContext) :
    ∀ w ∈ stepExecutorTaskWrites (ex.execute t1 t2 step ctx),
      w = TaskWrite.apiPause ∧ w.isDirectStatusWrite = false := by
  intro w hw
  simp only [stepExecutorTaskWrites, List.mem_map] at hw
  obtain ⟨_, _, rfl⟩ := hw
  exact ⟨rfl, rfl⟩

/-- Witness for the amended C6: a concrete APPROVAL run whose single Task-row
operation is the pause API call. -/
theorem step_executor_task_writes_api_only_witness :
    (TaskWrite.apiPause ∈ stepExecutorTaskWrites (exW0.execute 1 2 (mkStep "ap1" "approval" []) ctx0))
    ∧ (TaskWrite.apiPause = TaskWrite.apiPause
       ∧ TaskWrite.apiPause.isDirectStatusWrite = false) := by
  have hmem : TaskWrite.apiPause
      ∈ stepExecutorTaskWrites (exW0.execute 1 2 (mkStep "ap1" "approval" []) ctx0) := by
    show TaskWrite.apiPause ∈ [TaskWrite.apiPause]
    exact List.mem_singleton.mpr rfl
  exact ⟨hmem, step_executor_task_writes_api_only exW0 1 2 (mkStep "ap1" "approval" []) ctx0
    TaskWrite.apiPause hmem⟩

/-- A dict value whose `response` entry, if present, is a string, yields a
string from the `memory_store` lookup with default `""`. -/
theorem respOk_vGetD_str {v : Value} (hd : v.isDict = true) (hr : v.respOk = true) :
    ∃ s, vGetD v "response" (.str "") = .str s := by
  rcases Value.isDict_exists hd with ⟨d, rfl⟩
  simp only [Value.respOk] at hr
  simp only [vGetD, dGetD]
  cases hl : dLookup d "response" with
  | none => exact ⟨"", rfl⟩
  | some w =>
    rw [hl] at hr
    cases w with
    | str s => exact ⟨s, rfl⟩
    | int n => simp at hr
    | bool b => simp at hr
    | none => simp at hr
    | list xs => simp at hr
    | dict d2 => simp at hr

/-- Under context well-formedness, assembling the tool-call arguments never
raises, and the assembled tool name is the step's `tool` entry. -/
theorem assembleToolParams_wf_ok (step : Step) (ctx : ExecutionContext)
    (hw : WFResults ctx = true) :
    ∃ p, assembleToolParams step ctx = .ok (toolNameOf step, p) := by
  unfold assembleToolParams
  by_cases hms : ((toolNameOf step).eqStr "memory_store"
      && (dGetD step.action_data "source_step_id" Value.none).truthy) = true
  · rw [if_pos hms]
    by_cases hsd : ((ctx.getStepResult (dGetD step.action_data "source_step_id" Value.none)).truthy
        && (ctx.getStepResult (dGetD step.action_data "source_step_id" Value.none)).isDict) = true
    · rw [if_pos hsd]
      have hdict : (ctx.getStepResult (dGetD step.action_data "source_step_id" Value.none)).isDict = true := by
        simp only [Bool.and_eq_true] at hsd
        exact hsd.2
      have hresp : (ctx.getStepResult (dGetD step.action_data "source_step_id" Value.none)).respOk = true := by
        rcases getStepResult_wf hw (dGetD step.action_data "source_step_id" Value.none) with hnone | ⟨_, h2⟩
        · rw [hnone] at hdict; simp [Value.isDict] at hdict
        · exact h2
      obtain ⟨s, hs⟩ := respOk_vGetD_str hdict hresp
      rw [hs]
      exact ⟨_, rfl⟩
    · rw [if_neg hsd]
      exact ⟨_, rfl⟩
  · rw [if_neg hms]
    exact ⟨_, rfl⟩

/-- C1: for every APPROVAL step (over any well-formed context), `execute`
never returns a normal completed result: it calls `TaskManager.pause` with a
payload carrying the step's `step_id`, the approval message and the
`draft_content` (the prior step's `response` content whenever `action_data`
names a `draft_step_id` with a stored result), and then signals the pause by
raising `ApprovalRequired`, which unwinds to the Executor. -/
theorem approval_always_pauses (ex : StepExecutor) (t1 t2 : Nat)
    (step : Step) (ctx : ExecutionContext)
    (ha : step.action = "approval") (hw : WFResults ctx = true) :
    (∀ r, (ex.execute t1 t2 step ctx).result ≠ .ok r)
    ∧ (ex.execute t1 t2 step ctx).pauses
        = [⟨ctx.task_id, PauseReason.approval,
            [("step_id", .str step.step_id), ("message", approvalMessage step),
             ("draft_content", approvalDraft step ctx)]⟩]
    ∧ (ex.execute t1 t2 step ctx).result
        = .error (.approvalRequired (approvalMessage step) step.step_id (approvalDraft step ctx))
    ∧ (∀ d, (dGetD step.action_data "draft_step_id" Value.none).truthy = true →
        ctx.getStepResult (dGetD step.action_data "draft_step_id" Value.none) = .dict d →
        (Value.dict d).truthy = true →
        approvalDraft step ctx = dGetD d "response" Value.none) := by
  have hl : ex.handlersGet step.action = some handle_approval := by
    simp [StepExecutor.handlersGet, ha]
  have hcall : handle_approval (runningStep step t1) ctx =
      ⟨.error (.approvalRequired (approvalMessage step) step.step_id (approvalDraft step ctx)),
       [⟨ctx.task_id, PauseReason.approval,
         [("step_id", .str step.step_id), ("message", approvalMessage step),
          ("draft_content", approvalDraft step ctx)]⟩],
       []⟩ := by
    rw [handle_approval_runningStep]
    exact handle_approval_wf step ctx hw
  refine ⟨?_, ?_, ?_, ?_⟩
  · intro r
    simp only [StepExecutor.execute, hl]
    rw [hcall]
    simp
  · simp only [StepExecutor.execute, hl]
    rw [hcall]
  · simp only [StepExecutor.execute, hl]
    rw [hcall]
  · intro d htr heq htru
    unfold approvalDraft
    rw [if_pos htr, heq, if_pos htru]
    rfl

/-- Witness for C1: a concrete APPROVAL step whose `draft_step_id` names a
stored draft. -/
theorem approval_always_pauses_witness :
    (stepApD.action = "approval") ∧ (WFResults ctxD = true)
    ∧ ((∀ r, (exW0.execute 1 2 stepApD ctxD).result ≠ .ok r)
      ∧ (exW0.execute 1 2 stepApD ctxD).pauses
          = [⟨ctxD.task_id, PauseReason.approval,
              [("step_id", .str stepApD.step_id), ("message", approvalMessage stepApD),
               ("draft_content", approvalDraft stepApD ctxD)]⟩]
      ∧ (exW0.execute 1 2 stepApD ctxD).result
          = .error (.approvalRequired (approvalMessage stepApD) stepApD.step_id
                      (approvalDraft stepApD ctxD))
      ∧ (∀ d, (dGetD stepApD.action_data "draft_step_id" Value.none).truthy = true →
          ctxD.getStepResult (dGetD stepApD.action_data "draft_step_id" Value.none) = .dict d →
          (Value.dict d).truthy = true →
          approvalDraft stepApD ctxD = dGetD d "response" Value.none)) :=
  ⟨rfl, rfl, approval_always_pauses exW0 1 2 stepApD ctxD rfl rfl⟩

/-- C5: a TOOL_CALL step naming an unregistered tool completes with the
deterministic placeholder result, a function of the tool name and
`action_data` alone; no failure reaches the Task. -/
theorem unregistered_tool_deterministic_mock (ex : StepExecutor) (t1 t2 : Nat)
    (step : Step) (ctx : ExecutionContext)
    (ha : step.action = "tool_call") (hw : WFResults ctx = true)
    (hr : regLookupV ex.tool_registry (toolNameOf step) = Option.none) :
    (ex.execute t1 t2 step ctx).result
      = .ok (mockToolResult (toolNameOf step) step.action_data)
    ∧ (ex.execute t1 t2 step ctx).step.status = .completed
    ∧ ∀ e, (ex.execute t1 t2 step ctx).result ≠ .error e := by
  have hl : ex.handlersGet step.action = some (handle_tool_call ex.tool_registry) := by
    simp [StepExecutor.handlersGet, ha]
  obtain ⟨p, hp⟩ := assembleToolParams_wf_ok step ctx hw
  have hcall : handle_tool_call ex.tool_registry (runningStep step t1) ctx
      = ⟨.ok (mockToolResult (toolNameOf step) step.action_data), [], []⟩ := by
    unfold handle_tool_call
    rw [assembleToolParams_runningStep, hp]
    simp [hr]
  refine ⟨?_, ?_, ?_⟩
  · simp only [StepExecutor.execute, hl]
    rw [hcall]
  · simp only [StepExecutor.execute, hl]
    rw [hcall]
  · intro e
    simp only [StepExecutor.execute, hl]
    rw [hcall]
    simp

/-- Witness for C5: the `web_fetch` mock payload at a concrete step. -/
theorem unregistered_tool_deterministic_mock_witness :
    ((mkStep "t1" "tool_call" [("tool", .str "web_fetch"), ("url", .str "u")]).action = "tool_call")
    ∧ (WFResults ctx0 = true)
    ∧ (regLookupV exW0.tool_registry
        (toolNameOf (mkStep "t1" "tool_call" [("tool", .str "web_fetch"), ("url", .str "u")]))
        = Option.none)
    ∧ ((exW0.execute 1 2 (mkStep "t1" "tool_call" [("tool", .str "web_fetch"), ("url", .str "u")]) ctx0).result
        = .ok (mockToolResult
            (toolNameOf (mkStep "t1" "tool_call" [("tool", .str "web_fetch"), ("url", .str "u")]))
            (mkStep "t1" "tool_call" [("tool", .str "web_fetch"), ("url", .str "u")]).action_data)
      ∧ (exW0.execute 1 2 (mkStep "t1" "tool_call" [("tool", .str "web_fetch"), ("url", .str "u")]) ctx0).step.status
        = .completed
      ∧ ∀ e, (exW0.execute 1 2 (mkStep "t1" "tool_call" [("tool", .str "web_fetch"), ("url", .str "u")]) ctx0).result
        ≠ .error e) :=
  ⟨rfl, rfl, rfl,
   unregistered_tool_deterministic_mock exW0 1 2
     (mkStep "t1" "tool_call" [("tool", .str "web_fetch"), ("url", .str "u")]) ctx0 rfl rfl rfl⟩

/-- C4: a raised exception inside the LLM provider call (for an LLM_CALL step
with a configured service) or inside a registered tool handler (for a
TOOL_CALL step) is caught within the handler dispatch: `execute` returns
normally with an error-bearing dict whose `error` entry is the exception's
string, the step is marked completed rather than failed, and no failure
propagates to fail the Task. -/
theorem handler_errors_recovered_nonfatal (ex : StepExecutor) (t1 t2 : Nat)
    (step : Step) (ctx : ExecutionContext) (svc : LLMService) (e : String)
    (spec : ToolSpec) (tn : Value) (p : PyDict) :
    ((step.action = "llm_call" → ex.llm_service = some svc →
      svc.complete (runningStep step t1) ctx = .error e →
      ((ex.execute t1 t2 step ctx).result
          = .ok (.dict [("purpose", purposeOf step), ("error", .str e)])
        ∧ (ex.execute t1 t2 step ctx).step.status = .completed
        ∧ ∀ pe, (ex.execute t1 t2 step ctx).result ≠ .error pe)))
    ∧ ((step.action = "tool_call" →
      assembleToolParams step ctx = .ok (tn, p) →
      regLookupV ex.tool_registry tn = some spec →
      spec.handler (p.filter (fun kv => decide (kv.1 ∈ spec.paramNames))) = .error e →
      ((ex.execute t1 t2 step ctx).result
          = .ok (.dict [("tool", tn), ("error", .str e)])
        ∧ (ex.execute t1 t2 step ctx).step.status = .completed
        ∧ ∀ pe, (ex.execute t1 t2 step ctx).result ≠ .error pe))) := by
  constructor
  · intro ha hsvc hce
    have hl : ex.handlersGet step.action
        = some (handle_llm_call ex.llm_service ex.post) := by
      simp [StepExecutor.handlersGet, ha]
    have hcall : handle_llm_call ex.llm_service ex.post (runningStep step t1) ctx
        = ⟨.ok (.dict [("purpose", purposeOf step), ("error", .str e)]), [], []⟩ := by
      unfold handle_llm_call
      rw [hsvc]
      have htry : tryLLM svc ex.post (purposeOf (runningStep step t1))
          (dGetD (runningStep step t1).action_data "smm_context" (.str ""))
          (runningStep step t1) ctx = .error e := by
        unfold tryLLM
        rw [hce]
      simp only [htry]
      rfl
    refine ⟨?_, ?_, ?_⟩
    · simp only [StepExecutor.execute, hl]
      rw [hcall]
    · simp only [StepExecutor.execute, hl]
      rw [hcall]
    · intro pe
      simp only [StepExecutor.execute, hl]
      rw [hcall]
      simp
  · intro ha hassem hreg hhandler
    have hl : ex.handlersGet step.action
        = some (handle_tool_call ex.tool_registry) := by
      simp [StepExecutor.handlersGet, ha]
    have hcall : handle_tool_call ex.tool_registry (runningStep step t1) ctx
        = ⟨.ok (.dict [("tool", tn), ("error", .str e)]), [],
           [(tn, p.filter (fun kv => decide (kv.1 ∈ spec.paramNames)))]⟩ := by
      unfold handle_tool_call
      rw [assembleToolParams_runningStep, hassem]
      simp only [hreg, hhandler]
    refine ⟨?_, ?_, ?_⟩
    · simp only [StepExecutor.execute, hl]
      rw [hcall]
    · simp only [StepExecutor.execute, hl]
      rw [hcall]
    · intro pe
      simp only [StepExecutor.execute, hl]
      rw [hcall]
      simp

/-- Witness for C4: a concrete failing provider and a concrete failing
registered tool handler. -/
theorem handler_errors_recovered_nonfatal_witness :
    (((mkStep "l2" "llm_call" []).action = "llm_call")
     ∧ (exLLMFail.llm_service = some svcFail)
     ∧ (svcFail.complete (runningStep (mkStep "l2" "llm_call" []) 1) ctx0 = .error "provider down")
     ∧ ((exLLMFail.execute 1 2 (mkStep "l2" "llm_call" []) ctx0).result
          = .ok (.dict [("purpose", purposeOf (mkStep "l2" "llm_call" [])),
                        ("error", .str "provider down")])
       ∧ (exLLMFail.execute 1 2 (mkStep "l2" "llm_call" []) ctx0).step.status = .completed))
    ∧ ((stepToolT.action = "tool_call")
     ∧ (assembleToolParams stepToolT ctx0
          = .ok (.str "t", [("x", .int 1), ("junk", .int 2), ("user_id", .int 42)]))
     ∧ (regLookupV exToolFail.tool_registry (.str "t") = some failSpec)
     ∧ (failSpec.handler
          (([("x", .int 1), ("junk", .int 2), ("user_id", .int 42)] : PyDict).filter
            (fun kv => decide (kv.1 ∈ failSpec.paramNames))) = .error "tool down")
     ∧ ((exToolFail.execute 1 2 stepToolT ctx0).result
          = .ok (.dict [("tool", .str "t"), ("error", .str "tool down")])
       ∧ (exToolFail.execute 1 2 stepToolT ctx0).step.status = .completed)) := by
  constructor
  · refine ⟨rfl, rfl, rfl, ?_, ?_⟩
    · exact ((handler_errors_recovered_nonfatal exLLMFail 1 2 (mkStep "l2" "llm_call" []) ctx0
        svcFail "provider down" failSpec (.str "t") []).1 rfl rfl rfl).1
    · exact ((handler_errors_recovered_nonfatal exLLMFail 1 2 (mkStep "l2" "llm_call" []) ctx0
        svcFail "provider down" failSpec (.str "t") []).1 rfl rfl rfl).2.1
  · refine ⟨rfl, rfl, rfl, rfl, ?_, ?_⟩
    · exact ((handler_errors_recovered_nonfatal exToolFail 1 2 stepToolT ctx0
        svcFail "tool down" failSpec (.str "t")
        [("x", .int 1), ("junk", .int 2), ("user_id", .int 42)]).2 rfl rfl rfl rfl).1
    · exact ((handler_errors_recovered_nonfatal exToolFail 1 2 stepToolT ctx0
        svcFail "tool down" failSpec (.str "t")
        [("x", .int 1), ("junk", .int 2), ("user_id", .int 42)]).2 rfl rfl rfl rfl).2.1

/-- C8: for a TOOL_CALL step whose tool is registered, the handler is invoked
exactly once, with the assembled argument map restricted to the handler's
declared parameter set — every keyword argument passed belongs to the
declared set and keys outside it are silently dropped, not passed through
and not treated as an error. -/
theorem tool_args_filtered_to_declared (ex : StepExecutor) (t1 t2 : Nat)
    (step : Step) (ctx : ExecutionContext) (tn : Value) (p : PyDict) (spec : ToolSpec)
    (ha : step.action = "tool_call")
    (hassem : assembleToolParams step ctx = .ok (tn, p))
    (hreg : regLookupV ex.tool_registry tn = some spec) :
    (ex.execute t1 t2 step ctx).toolCalls
      = [(tn, p.filter (fun kv => decide (kv.1 ∈ spec.paramNames)))]
    ∧ ∀ kv ∈ (ex.execute t1 t2 step ctx).toolCalls,
        ∀ arg ∈ kv.2, arg.1 ∈ spec.paramNames := by
  have hl : ex.handlersGet step.action
      = some (handle_tool_call ex.tool_registry) := by
    simp [StepExecutor.handlersGet, ha]
  have hcalls : (handle_tool_call ex.tool_registry (runningStep step t1) ctx).toolCalls
      = [(tn, p.filter (fun kv => decide (kv.1 ∈ spec.paramNames)))]
      ∧ ∃ v, (handle_tool_call ex.tool_registry (runningStep step t1) ctx).res = .ok v := by
    unfold handle_tool_call
    rw [assembleToolParams_runningStep, hassem]
    simp only [hreg]
    cases hh : spec.handler (p.filter (fun kv => decide (kv.1 ∈ spec.paramNames))) with
    | error e => exact ⟨rfl, _, rfl⟩
    | ok r =>
      cases r with
      | str s => exact ⟨rfl, _, rfl⟩
      | int n => exact ⟨rfl, _, rfl⟩
      | bool b => exact ⟨rfl, _, rfl⟩
      | none => exact ⟨rfl, _, rfl⟩
      | list xs => exact ⟨rfl, _, rfl⟩
      | dict d => exact ⟨rfl, _, rfl⟩
  obtain ⟨htc, v, hv⟩ := hcalls
  have houtc : (ex.execute t1 t2 step ctx).toolCalls
      = [(tn, p.filter (fun kv => decide (kv.1 ∈ spec.paramNames)))] := by
    simp only [StepExecutor.execute, hl]
    rw [hv]
    exact htc
  refine ⟨houtc, ?_⟩
  intro kv hkv arg harg
  rw [houtc] at hkv
  rcases List.mem_singleton.mp hkv with rfl
  exact of_decide_eq_true (List.mem_filter.mp harg).2

/-- Witness for C8: the echo tool at a concrete step — the undeclared `junk`
argument is dropped, `x` and `user_id` are passed. -/
theorem tool_args_filtered_to_declared_witness :
    (stepToolT.action = "tool_call")
    ∧ (assembleToolParams stepToolT ctx0
        = .ok (.str "t", [("x", .int 1), ("junk", .int 2), ("user_id", .int 42)]))
    ∧ (regLookupV exToolEcho.tool_registry (.str "t") = some echoSpec)
    ∧ ((exToolEcho.execute 1 2 stepToolT ctx0).toolCalls
        = [((.str "t" : Value),
            (([("x", .int 1), ("junk", .int 2), ("user_id", .int 42)] : PyDict).filter
              (fun kv => decide (kv.1 ∈ echoSpec.paramNames))))]
      ∧ ∀ kv ∈ (exToolEcho.execute 1 2 stepToolT ctx0).toolCalls,
          ∀ arg ∈ kv.2, arg.1 ∈ echoSpec.paramNames) :=
  ⟨rfl, rfl, rfl,
   tool_args_filtered_to_declared exToolEcho 1 2 stepToolT ctx0 (.str "t")
     [("x", .int 1), ("junk", .int 2), ("user_id", .int 42)] echoSpec rfl rfl rfl⟩

end Yadro
